import Mathlib

/-!
# Verification of the Ownit conversation orchestrator

This file gives a shallow embedding of the orchestration core of the
Ownit design-assistant repository (`src/app/src/agent/graph.py`, with its
state model from `src/app/src/agent/state.py` and the tool registry from
`src/app/src/agent/tools.py`), and settles the specification claims about
it.

The language-model call, the image-generation tool body, the
pixel-conversion helper and the object-storage upload are external
collaborators (I/O); they enter the embedding as explicit environment
values (`CallEnv`, `ProdEnv`, `ModelResp`) supplied to each step, exactly
at the interface boundary the spec draws.  Everything the Python
orchestrator itself computes — routing, path construction, message and
artifact accumulation, the `image_count` counter, plan/content splitting —
is embedded as executable Lean functions.
-/

/-- A single character: the ASCII apostrophe, built without a quote
literal.  Used to assemble the Python source's message strings that
contain quoted tool names. -/
def apos : String := ⟨[Char.ofNat 39]⟩

/-- Whether a path string is absolute (starts with a slash). -/
def startsSlash (b : String) : Bool :=
  match b.data with
  | c :: _ => c == '/'
  | [] => false

/-- `os.path.join a b` for the shapes used in `graph.py`: `a` is a fixed
non-empty segment without a trailing slash, so the join is `a ++ "/" ++ b`
unless `b` is absolute. -/
def pathJoin (a b : String) : String :=
  if startsSlash b then b else a ++ "/" ++ b

/-- Python `state.email or "unknown_user"`: `None` and the empty string
are falsy. -/
def orUnknown : Option String → String
  | none => "unknown_user"
  | some e => if e = "" then "unknown_user" else e

/-- ASCII lowercasing of one character; models Python `str.lower` on the
ASCII arguments that reach it in `production_node`. -/
def lowerAscii (c : Char) : Char :=
  if 'A' ≤ c && c ≤ 'Z' then Char.ofNat (c.toNat + 32) else c

/-- Python `str.lower`, restricted to ASCII case mapping. -/
def pyLower (s : String) : String := ⟨s.data.map lowerAscii⟩

/-- Python `str.strip` whitespace test (the ASCII whitespace characters). -/
def isSpaceChar (c : Char) : Bool :=
  c == ' ' || c == '\t' || c == '\n' || c == '\r' || c == Char.ofNat 11 || c == Char.ofNat 12

/-- Python `str.strip`: drop whitespace from both ends. -/
def stripList (s : List Char) : List Char :=
  ((s.dropWhile isSpaceChar).reverse.dropWhile isSpaceChar).reverse

/-- First occurrence of `pat` in `s`: returns the part before the match
and the part after it.  This is the search underlying the
`re.search(r"<Plan>(.*?)</Plan>(.*)", ..., re.DOTALL)` call in
`call_model` / `call_finishing_model`. -/
def findSub (pat : List Char) : List Char → Option (List Char × List Char)
  | [] => if pat.isPrefixOf ([] : List Char) then some ([], []) else none
  | c :: cs =>
    if pat.isPrefixOf (c :: cs) then some ([], (c :: cs).drop pat.length)
    else
      match findSub pat cs with
      | none => none
      | some (b, r) => some (c :: b, r)

/-- Whether `pat` occurs as a contiguous substring of `s`. -/
def containsSub (pat s : List Char) : Bool := (findSub pat s).isSome

/-- The opening delimiter `<Plan>` of the internal-reasoning block. -/
def oTag : List Char := ['<', 'P', 'l', 'a', 'n', '>']

/-- The closing delimiter `</Plan>` of the internal-reasoning block. -/
def cTag : List Char := ['<', '/', 'P', 'l', 'a', 'n', '>']

/-- Response post-processing shared by `call_model` and
`call_finishing_model`: `re.search(r"<Plan>(.*?)</Plan>(.*)", content,
re.DOTALL)`; on a match the visible content becomes `group(2).strip()`
and `group(1).strip()` is stored as the `internal_plan` metadata;
otherwise the content is returned unchanged with no metadata. -/
def processContent (s : String) : String × Option String :=
  match findSub oTag s.data with
  | none => (s, none)
  | some (_, r) =>
    match findSub cTag r with
    | none => (s, none)
    | some (p, t) => (⟨stripList t⟩, some ⟨stripList p⟩)

/-- Arguments of a tool call: the JSON object the model supplies, modelled
as one record of optional fields, one per key that the orchestrator or a
registered tool reads (`args.get(...)` / `args[...]` in the source). -/
structure ToolArgs where
  prompt : Option String := none
  image_number : Option Int := none
  output_path : Option String := none
  image_path : Option String := none
  main_character : Option String := none
  text : Option String := none
  items_to_include : Option (List String) := none
  color_palette : Option String := none
  design_number : Option Int := none
  size : Option String := none
  product_type : Option String := none
deriving DecidableEq, Repr

/-- A tool call requested by the model: `{name, args, id}`. -/
structure ToolCall where
  name : String
  id : String
  args : ToolArgs
deriving DecidableEq, Repr

/-- A conversation message: human turn, assistant turn (`AIMessage`, with
its tool calls and the `internal_plan` entry of its `response_metadata`),
or tool result (`ToolMessage`; its optional `name` field is set only on
some of the construction sites in the source). -/
inductive Msg where
  | human (content : String)
  | ai (content : String) (tool_calls : List ToolCall) (internal_plan : Option String)
  | toolMsg (content : String) (tool_call_id : String) (name : Option String)
deriving DecidableEq, Repr

/-- The tool-call id of a message, when it is a tool result. -/
def toolIdOf : Msg → Option String
  | .toolMsg _ i _ => some i
  | _ => none

/-- An artifact record `{"type": "image", "b64": ...}`. -/
structure Artifact where
  type : String
  b64 : String
deriving DecidableEq, Repr

/-- The conversation state (`State` in `state.py`): message history,
user email, artifact list and the design-iteration counter.  The managed
`is_last_step` flag is supplied by the harness per step and is therefore
a step parameter here, not a state field. -/
structure AgentState where
  messages : List Msg
  email : Option String
  artifacts : List Artifact
  image_count : Int
deriving DecidableEq, Repr

/-- External outcome of dispatching one tool call in `custom_tool_node`:
whether `tool.ainvoke` raised (and the exception text), what reading the
produced file yielded (`none` = unreadable), and what `upload_to_gcs`
produced (`none` = falsy result or exception, `some u` = public URL). -/
structure CallEnv where
  exc : Option String := none
  readB64 : Option String := none
  uploadUrl : Option String := none
deriving DecidableEq, Repr

/-- External outcome of `upload_to_gcs` in `production_node`. -/
inductive UploadOutcome where
  | raised (e : String)
  | returned (u : Option String)
deriving DecidableEq, Repr

/-- External outcomes consumed by `production_node`: whether
`convert_black_to_transparent` raised, and what the upload did. -/
structure ProdEnv where
  convertExc : Option String := none
  upload : UploadOutcome := .returned none
deriving DecidableEq, Repr

/-- A model response at the model boundary: content plus requested tool
calls. -/
structure ModelResp where
  content : String
  tool_calls : List ToolCall
deriving DecidableEq, Repr

/-- Observable side effects of a node, recorded in emission order. -/
inductive Effect where
  | readFile (path : String)
  | upload (path ns : String)
  | convert (inp out : String)
deriving DecidableEq, Repr

/-- The graph nodes (plus the entry and terminal points): `call_model`
is the ideation/refinement phase, `tools` is `custom_tool_node`,
`callFinishing` is `call_finishing_model`, `production` is
`production_node`. -/
inductive Node where
  | entry | callModel | tools | callFinishing | production | endNode
deriving DecidableEq, Repr

/-- The names of the registered tools (`TOOLS` in `tools.py`). -/
def registryNames : List String :=
  ["create_image_prompt", "create_image", "convert_black_to_transparent"]

/-- The names admitted by the dispatch filter in `custom_tool_node`
(`if tool_name not in ["create_image", "create_image_prompt"]: continue`). -/
def filterNames : List String := ["create_image", "create_image_prompt"]

/-- Python `", ".join`. -/
def joinComma : List String → String
  | [] => ""
  | [x] => x
  | x :: xs => x ++ ", " ++ joinComma xs

/-- The pure body of the `create_image_prompt` tool (`tools.py`), built
exactly as its Python f-strings build it.  Its declared arguments are
required; a call missing them fails langchain validation, which the
embedding delivers through the environment's exception outcome, so the
defaults below are never observed on an executed call. -/
def createImagePromptStr (a : ToolArgs) : String :=
  let main_character := a.main_character.getD ""
  let text := a.text.getD ""
  let items := a.items_to_include.getD []
  let color_palette := a.color_palette.getD ""
  let mainCharacterPrompt :=
    "Diseña una obra de arte audaz y exagerada, con " ++ main_character ++
      " como personaje central."
  let itemsPrompt :=
    if items = [] then "" else "El diseño debe incluir: " ++ joinComma items ++ "."
  let textPrompt :=
    if text = "" then ""
    else "El texto " ++ apos ++ text ++ apos ++
      " DEBE APARECER ESCRITO de forma clara en el diseño."
  let stylePrompt :=
    "<ESTILO>\n" ++
    "        Genera un diseño estilo caricaturesco y exagerado con un enfoque llamativo y vibrante.\n" ++
    "        Usa un personaje central de apariencia humorística, con rasgos detallados y expresiones exageradas.\n" ++
    "        Presentar un enfoque que emplea principalmente el blanco y el negro y los colores " ++
      color_palette ++ " para añadir contraste.\n" ++
    "        **EL FONDO DEBE SER NEGRO**\n" ++
    "        Los objetos deben tener un estilo hiperrealista con detalles texturizados y reflejos luminosos.\n" ++
    "        La tipografía debe tener un aire vintage, reminiscente de carteles clásicos.\n" ++
    "        </ESTILO>\n" ++
    "    "
  "\n" ++
  "        <OBJETIVO>\n" ++
  "        " ++ mainCharacterPrompt ++ "\n" ++
  "        </OBJETIVO>\n" ++
  "\n" ++
  "        <INSTRUCCIONES>\n" ++
  "        " ++ textPrompt ++ "\n" ++
  "        " ++ itemsPrompt ++ "\n" ++
  "         **La palabra " ++ apos ++ "OWNIT" ++ apos ++
    " debe estar integrada sutilmente en el diseño, de forma que no sea el foco principal.**\n" ++
  "        </INSTRUCCIONES>\n" ++
  "\n" ++
  "        <OBSERVACIONES>\n" ++
  "        </OBSERVACIONES>\n" ++
  "\n" ++
  "        " ++ stylePrompt ++ "\n" ++
  "    "

/-- Per-call output of the dispatch loop body in `custom_tool_node`
(`graph.py` lines 175-244), for one tool call that passed the name
filter: the tool messages it appends, the artifacts it collects, the
update it makes to `new_image_count` (if any), and its side effects.

Mirrors the source exactly: the registry lookup failure appends
`Error: Tool '...' not found.`; for `create_image` the output path is
forced to `<base_path>/design-<image_number>.png` and `new_image_count`
is set to `image_number` (default 1) *before* the tool is invoked, so the
counter is updated even when the invocation then raises; a successful
`create_image` returns the forced output path, after which the file is
read into a base64 artifact (best effort) and an upload is attempted —
note the source builds the `ToolMessage` *before* the upload, so the
message content is the local path on every branch; a per-call exception
becomes an error `ToolMessage` carrying the exception text. -/
def processCall (basePath email : String) (ce : CallEnv) (tc : ToolCall) :
    List Msg × List Artifact × Option Int × List Effect :=
  if registryNames.contains tc.name = false then
    ([.toolMsg ("Error: Tool " ++ apos ++ tc.name ++ apos ++ " not found.") tc.id none],
     [], none, [])
  else if tc.name = "create_image" then
    let n := tc.args.image_number.getD 1
    let outPath := pathJoin basePath ("design-" ++ toString n ++ ".png")
    match ce.exc with
    | some e =>
      ([.toolMsg ("Error executing tool " ++ tc.name ++ ": " ++ e) tc.id none],
       [], some n, [])
    | none =>
      ([.toolMsg outPath tc.id (some tc.name)],
       (match ce.readB64 with
        | some b => [{ type := "image", b64 := b }]
        | none => []),
       some n,
       [.readFile outPath, .upload outPath email])
  else if tc.name = "create_image_prompt" then
    match ce.exc with
    | some e =>
      ([.toolMsg ("Error executing tool " ++ tc.name ++ ": " ++ e) tc.id none],
       [], none, [])
    | none =>
      ([.toolMsg (createImagePromptStr tc.args) tc.id (some tc.name)], [], none, [])
  else
    -- Unreachable from the dispatch loop: the name filter admits only
    -- "create_image" and "create_image_prompt" (both registered), so the
    -- source's dead `convert_black_to_transparent` path-rewriting branch
    -- (lines 200-204) is never executed.
    ([], [], none, [])

/-- Accumulated output of the dispatch loop. -/
structure DispatchOut where
  msgs : List Msg
  artifacts : List Artifact
  count : Int
  effs : List Effect
deriving DecidableEq, Repr

/-- The `for tool_call in last_message.tool_calls` loop of
`custom_tool_node`: calls whose name is not in the filter list are
skipped outright (`continue`, appending nothing); the others are
processed by `processCall`, threading `new_image_count` left to right.
`env i` is the external outcome of the `i`-th call of the batch. -/
def dispatchLoop (basePath email : String) (env : Nat → CallEnv) :
    Nat → Int → List ToolCall → DispatchOut
  | _, count, [] => ⟨[], [], count, []⟩
  | i, count, tc :: rest =>
    if filterNames.contains tc.name = false then
      dispatchLoop basePath email env (i + 1) count rest
    else
      let pc := processCall basePath email (env i) tc
      let out := dispatchLoop basePath email env (i + 1) (pc.2.2.1.getD count) rest
      ⟨pc.1 ++ out.msgs, pc.2.1 ++ out.artifacts, out.count, pc.2.2.2 ++ out.effs⟩

/-- `custom_tool_node` (`graph.py` lines 157-249).  If the last message
is not an assistant message carrying tool calls, the state is returned
unchanged; otherwise every tool call of that message is dispatched and
the node returns the appended tool messages, the accumulated artifacts
and the updated `image_count`.  (In the running graph the message list is
never empty at this node; the empty case returns the state unchanged.) -/
def custom_tool_node (s : AgentState) (env : Nat → CallEnv) :
    AgentState × List Effect :=
  match s.messages.getLast? with
  | some (.ai _ tcs _) =>
    if tcs.isEmpty then (s, [])
    else
      let email := orUnknown s.email
      let basePath := pathJoin "images" email
      let out := dispatchLoop basePath email env 0 s.image_count tcs
      ({ s with
          messages := s.messages ++ out.msgs,
          artifacts := s.artifacts ++ out.artifacts,
          image_count := out.count },
       out.effs)
  | _ => (s, [])

/-- The body of `production_node` (`graph.py` lines 271-319) for the
first tool call (already known to be `execute_production_file`): the tool
messages it appends and its side effects.  `design_number` is validated
by Python truthiness (`if not design_num`), so both an absent and a zero
value raise; `size` / `product_type` fall back to the sentinel defaults
and are lowercased; the conversion and upload are attempted in order, a
falsy upload result raises, and any exception in the chain becomes a
single `Error finalizing design: ...` tool message. -/
def productionBody (email : String) (tc : ToolCall) (env : ProdEnv) :
    List Msg × List Effect :=
  let basePath := pathJoin "images" email
  let size := pyLower (tc.args.size.getD "talle-desconocido")
  let prodType := pyLower (tc.args.product_type.getD "tipo-desconocido")
  let fail := fun (e : String) =>
    [Msg.toolMsg ("Error finalizing design: " ++ e) tc.id (some "execute_production_file")]
  match tc.args.design_number with
  | none => (fail "design_number is missing from execute_production_file call", [])
  | some d =>
    if d = 0 then
      (fail "design_number is missing from execute_production_file call", [])
    else
      let inputPath := pathJoin basePath ("design-" ++ toString d ++ ".png")
      let outputPath := pathJoin basePath ("talle-" ++ size ++ "-" ++ prodType ++ ".png")
      match env.convertExc with
      | some e => (fail e, [.convert inputPath outputPath])
      | none =>
        match env.upload with
        | .raised e =>
          (fail e, [.convert inputPath outputPath, .upload outputPath email])
        | .returned none =>
          (fail "Failed to upload final file to GCS",
           [.convert inputPath outputPath, .upload outputPath email])
        | .returned (some url) =>
          ([Msg.toolMsg url tc.id (some "execute_production_file")],
           [.convert inputPath outputPath, .upload outputPath email])

/-- `production_node` (`graph.py` lines 252-321).  A guard returns the
state unchanged unless the last message is an assistant message whose
*first* tool call is `execute_production_file`; otherwise the body runs
for that first call only and its tool messages are appended
(`artifacts` is passed through unchanged, `image_count` untouched). -/
def production_node (s : AgentState) (env : ProdEnv) : AgentState × List Effect :=
  match s.messages.getLast? with
  | some (.ai _ (tc :: _) _) =>
    if tc.name = "execute_production_file" then
      let r := productionBody (orUnknown s.email) tc env
      ({ s with messages := s.messages ++ r.1 }, r.2)
    else (s, [])
  | _ => (s, [])

/-- `call_model` (`graph.py` lines 38-89): invoke the model (the response
is the environment value `resp`), split a `<Plan>...</Plan>` block out of
the content into the `internal_plan` metadata, and append the cleaned
assistant message — unless this is the last permitted step and the model
still requested tool calls, in which case a fixed fallback message with
no tool calls is appended instead. -/
def call_model (s : AgentState) (isLastStep : Bool) (resp : ModelResp) : AgentState :=
  let pc := processContent resp.content
  if isLastStep && !resp.tool_calls.isEmpty then
    { s with messages := s.messages ++
        [.ai "Sorry, I could not find an answer to your question in the specified number of steps." [] none] }
  else
    { s with messages := s.messages ++ [.ai pc.1 resp.tool_calls pc.2] }

/-- `call_finishing_model` (`graph.py` lines 92-154): identical
post-processing logic to `call_model` (the source duplicates it), only
the prompt and bound tool subset differ — both live behind the model
boundary. -/
def call_finishing_model (s : AgentState) (isLastStep : Bool) (resp : ModelResp) :
    AgentState :=
  let pc := processContent resp.content
  if isLastStep && !resp.tool_calls.isEmpty then
    { s with messages := s.messages ++
        [.ai "Sorry, I could not find an answer to your question in the specified number of steps." [] none] }
  else
    { s with messages := s.messages ++ [.ai pc.1 resp.tool_calls pc.2] }

/-- `route_entry` (`graph.py` lines 324-334). -/
def route_entry (s : AgentState) : Node :=
  if s.image_count ≥ 3 then .callFinishing else .callModel

/-- `route_model_output` (`graph.py` lines 337-355): END without tool
calls; the image cap is checked before the `finalize_design` signal, and
only the *first* tool call's name is inspected. -/
def route_model_output (s : AgentState) : Node :=
  match s.messages.getLast? with
  | some (.ai _ (tc :: _) _) =>
    if s.image_count ≥ 3 then .callFinishing
    else if tc.name = "finalize_design" then .callFinishing
    else .tools
  | _ => .endNode

/-- `route_after_tools` (`graph.py` lines 358-369). -/
def route_after_tools (s : AgentState) : Node :=
  if s.image_count ≥ 3 then .callFinishing else .callModel

/-- `route_finishing_model` (`graph.py` lines 372-388): END without tool
calls, `production_node` when the first call is the production tool,
otherwise loop back to the finishing model. -/
def route_finishing_model (s : AgentState) : Node :=
  match s.messages.getLast? with
  | some (.ai _ (tc :: _) _) =>
    if tc.name = "execute_production_file" then .production else .callFinishing
  | _ => .endNode

/-- A fresh conversation: the user's first message, the user identity,
no artifacts, `image_count = 0`. -/
def initialState (m : String) (e : Option String) : AgentState :=
  { messages := [.human m], email := e, artifacts := [], image_count := 0 }

/-- One orchestrator transition of the compiled graph (`graph.py` lines
391-447): from the entry point the conditional edge `route_entry`
chooses the phase; each node runs (consuming its environment values) and
its conditional edge routes on the updated state; `production_node` has
the unconditional edge to END (`builder.add_edge("production_node",
END)`); and from END a new user turn re-enters the graph at the entry
point with the checkpointed state plus the new human message (the UI may
also re-supply the email). -/
inductive Step : Node × AgentState → Node × AgentState → Prop where
  | fromEntry (s : AgentState) :
      Step (.entry, s) (route_entry s, s)
  | fromModel (s : AgentState) (isLast : Bool) (resp : ModelResp) :
      Step (.callModel, s)
        (route_model_output (call_model s isLast resp), call_model s isLast resp)
  | fromTools (s : AgentState) (env : Nat → CallEnv) :
      Step (.tools, s)
        (route_after_tools (custom_tool_node s env).1, (custom_tool_node s env).1)
  | fromFinishing (s : AgentState) (isLast : Bool) (resp : ModelResp) :
      Step (.callFinishing, s)
        (route_finishing_model (call_finishing_model s isLast resp),
         call_finishing_model s isLast resp)
  | fromProduction (s : AgentState) (env : ProdEnv) :
      Step (.production, s) (.endNode, (production_node s env).1)
  | newTurn (s : AgentState) (m : String) (e : Option String) :
      Step (.endNode, s)
        (.entry, { s with messages := s.messages ++ [.human m], email := e })

/-! ## Properties of the substring search used by the plan extraction -/

theorem isPrefixOf_append (p r : List Char) : p.isPrefixOf (p ++ r) = true := by
  induction p with
  | nil => simp [List.isPrefixOf]
  | cons a as ih => simp [List.isPrefixOf, ih]

theorem exists_of_isPrefixOf {p s : List Char} (h : p.isPrefixOf s = true) :
    ∃ r, s = p ++ r := by
  induction p generalizing s with
  | nil => exact ⟨s, rfl⟩
  | cons a as ih =>
    cases s with
    | nil => simp [List.isPrefixOf] at h
    | cons b bs =>
      simp only [List.isPrefixOf, Bool.and_eq_true, beq_iff_eq] at h
      obtain ⟨rfl, h2⟩ := h
      obtain ⟨r, rfl⟩ := ih h2
      exact ⟨r, rfl⟩

theorem findSub_sound {pat s a r : List Char} (h : findSub pat s = some (a, r)) :
    s = a ++ (pat ++ r) := by
  induction s generalizing a r with
  | nil =>
    by_cases hp : pat.isPrefixOf ([] : List Char) = true
    · obtain ⟨t, ht⟩ := exists_of_isPrefixOf hp
      rcases List.append_eq_nil.mp ht.symm with ⟨rfl, rfl⟩
      simp [findSub] at h
      obtain ⟨rfl, rfl⟩ := h
      simp
    · simp [findSub, hp] at h
  | cons c cs ih =>
    by_cases hp : pat.isPrefixOf (c :: cs) = true
    · obtain ⟨t, ht⟩ := exists_of_isPrefixOf hp
      simp only [findSub, hp, if_true, Option.some.injEq, Prod.mk.injEq] at h
      obtain ⟨rfl, rfl⟩ := h
      rw [ht, List.drop_left]
      simp
    · simp only [findSub, hp, if_false, Bool.false_eq_true] at h
      cases hfs : findSub pat cs with
      | none => rw [hfs] at h; exact absurd h (by simp)
      | some br =>
        obtain ⟨b, r'⟩ := br
        rw [hfs] at h
        simp only [Option.some.injEq, Prod.mk.injEq] at h
        obtain ⟨rfl, rfl⟩ := h
        rw [ih hfs]
        simp

theorem findSub_of_append (pat y : List Char) :
    ∀ x : List Char, findSub pat (x ++ (pat ++ y)) ≠ none := by
  intro x
  induction x with
  | nil =>
    simp only [List.nil_append]
    cases pat with
    | nil => cases y <;> simp [findSub, List.isPrefixOf]
    | cons p ps =>
      rw [List.cons_append, findSub]
      rw [← List.cons_append, isPrefixOf_append]
      simp
  | cons c x' ih =>
    rw [List.cons_append, findSub]
    by_cases hp : pat.isPrefixOf (c :: (x' ++ (pat ++ y))) = true
    · simp [hp]
    · simp only [hp, Bool.false_eq_true, if_false]
      cases hfs : findSub pat (x' ++ (pat ++ y)) with
      | none => exact absurd hfs ih
      | some br => simp

theorem not_occurs_of_not_containsSub {pat s : List Char}
    (h : containsSub pat s = false) : ∀ x y, s ≠ x ++ (pat ++ y) := by
  intro x y hxy
  have hn : findSub pat s = none := by
    cases hfs : findSub pat s with
    | none => rfl
    | some v => rw [containsSub, hfs] at h; simp at h
  rw [hxy] at hn
  exact findSub_of_append pat y x hn

theorem findSub_none_of_not_containsSub {pat s : List Char}
    (h : containsSub pat s = false) : findSub pat s = none := by
  cases hfs : findSub pat s with
  | none => rfl
  | some v => rw [containsSub, hfs] at h; simp at h

/-- Positioning: when `pat` does not occur inside `a` and `pat` has no
non-trivial self-overlap, the first occurrence of `pat` in
`a ++ pat ++ r` is exactly at the end of `a`. -/
theorem findSub_append_eq (pat a r : List Char) (hne : pat ≠ [])
    (ha : ∀ x y, a ≠ x ++ (pat ++ y))
    (hov : ∀ k, k < pat.length → 0 < k →
      pat.drop k ≠ pat.take (pat.length - k)) :
    findSub pat (a ++ (pat ++ r)) = some (a, r) := by
  induction a with
  | nil =>
    simp only [List.nil_append]
    cases pat with
    | nil => exact absurd rfl hne
    | cons p ps =>
      rw [List.cons_append, findSub]
      rw [← List.cons_append, isPrefixOf_append]
      simp only [if_true]
      rw [List.drop_left]
  | cons c a' ih =>
    have hnp : pat.isPrefixOf (c :: (a' ++ (pat ++ r))) = false := by
      by_contra hcon
      rw [Bool.not_eq_false] at hcon
      obtain ⟨t, ht⟩ := exists_of_isPrefixOf hcon
      have hA : (c :: a') ++ (pat ++ r) = pat ++ t := by simpa using ht
      rcases List.append_eq_append_iff.mp hA with ⟨a2, hpat, hpr⟩ | ⟨c2, hA2, _⟩
      · rcases eq_or_ne a2 [] with rfl | hne2
        · exact ha [] [] (by simpa using hpat.symm)
        · have hdrop : pat.drop (c :: a').length = a2 := by
            rw [hpat]; exact List.drop_left _ _
          have hlen : pat.length = (c :: a').length + a2.length := by
            rw [hpat]; simp; omega
          have htake : pat.take a2.length = a2 := by
            have h1 : (pat ++ r).take a2.length = a2 := by
              rw [hpr]; exact List.take_left _ _
            rw [List.take_append_of_le_length (by omega)] at h1
            exact h1
          have hkey : pat.drop (c :: a').length =
              pat.take (pat.length - (c :: a').length) := by
            rw [hdrop, show pat.length - (c :: a').length = a2.length by omega, htake]
          have hpos : 0 < a2.length := List.length_pos.mpr hne2
          exact hov (c :: a').length (by omega) (by simp) hkey
      · exact ha [] c2 (by simpa using hA2)
    have ih' := ih (fun x y hxy => ha (c :: x) y (by simp [hxy]))
    show findSub pat ((c :: a') ++ (pat ++ r)) = some (c :: a', r)
    rw [List.cons_append, findSub, hnp]
    simp only [Bool.false_eq_true, if_false, ih']

theorem oTag_no_self_overlap :
    ∀ k, k < oTag.length → 0 < k → oTag.drop k ≠ oTag.take (oTag.length - k) := by
  decide

theorem cTag_no_self_overlap :
    ∀ k, k < cTag.length → 0 < k → cTag.drop k ≠ cTag.take (cTag.length - k) := by
  decide

/-- C9, counterexample to the claim as stated: for the body
`"<Plan>p</Plan> hi"` the code's visible content is the *stripped*
`"hi"`, not the literal text `" hi"` standing after the closing
delimiter. -/
theorem c9_counterexample :
    processContent "<Plan>p</Plan> hi" = ("hi", some "p") ∧ ("hi" : String) ≠ " hi" := by
  constructor
  · decide
  · decide

/-- The search returns the *first* occurrence: any decomposition of `s`
around `pat` starts no earlier than the returned one. -/
theorem findSub_min (pat : List Char) :
    ∀ (s a r : List Char), findSub pat s = some (a, r) →
      ∀ x y, s = x ++ (pat ++ y) → a.length ≤ x.length := by
  intro s
  induction s with
  | nil =>
    intro a r h x y heq
    by_cases hp : pat.isPrefixOf ([] : List Char) = true
    · simp only [findSub, hp, if_true, Option.some.injEq, Prod.mk.injEq] at h
      rw [← h.1]
      simp
    · simp [findSub, hp] at h
  | cons c cs ih =>
    intro a r h x y heq
    by_cases hp : pat.isPrefixOf (c :: cs) = true
    · simp only [findSub, hp, if_true, Option.some.injEq, Prod.mk.injEq] at h
      rw [← h.1]
      simp
    · cases x with
      | nil =>
        exfalso
        apply hp
        rw [show c :: cs = pat ++ y by simpa using heq]
        exact isPrefixOf_append pat y
      | cons cx xs =>
        simp only [List.cons_append, List.cons.injEq] at heq
        obtain ⟨rfl, hcs⟩ := heq
        simp only [findSub, hp, Bool.false_eq_true, if_false] at h
        cases hfs : findSub pat cs with
        | none => rw [hfs] at h; simp at h
        | some br =>
          obtain ⟨b, r'⟩ := br
          rw [hfs] at h
          simp only [Option.some.injEq, Prod.mk.injEq] at h
          rw [← h.1]
          simp only [List.length_cons]
          have := ih b r' hfs xs y hcs
          omega

/-- Whether the plan regex matches at all: some occurrence of the
opening delimiter is followed, after its end, by the closing delimiter. -/
def hasPlanBlock (s : List Char) : Bool :=
  match findSub oTag s with
  | none => false
  | some (_, r) => (findSub cTag r).isSome

/-- When the search fails, the body admits *no* delimited-block
decomposition at all (e.g. a closing delimiter standing before every
opening one does not form a block): by minimality, the first opening
delimiter starts no later than any candidate block's, so that block's
closing delimiter lies inside the searched remainder. -/
theorem no_block_of_hasPlanBlock_false {s : List Char}
    (h : hasPlanBlock s = false) :
    ∀ x m t, s ≠ x ++ (oTag ++ (m ++ (cTag ++ t))) := by
  intro x m t heq
  cases hfs : findSub oTag s with
  | none =>
    rw [heq] at hfs
    exact findSub_of_append oTag (m ++ (cTag ++ t)) x hfs
  | some v =>
    obtain ⟨a, r⟩ := v
    have h' : (findSub cTag r).isSome = false := by
      unfold hasPlanBlock at h
      rw [hfs] at h
      simpa using h
    have hnone : findSub cTag r = none := by
      cases hc : findSub cTag r with
      | none => rfl
      | some w => rw [hc] at h'; simp at h'
    have hmin : a.length ≤ x.length := findSub_min oTag s a r hfs x (m ++ (cTag ++ t)) heq
    have hsound : s = a ++ (oTag ++ r) := findSub_sound hfs
    have hr : r.drop (x.length - a.length) = m ++ (cTag ++ t) := by
      have h1 : r = s.drop (a.length + oTag.length) := by
        rw [hsound, ← List.append_assoc,
          show a.length + oTag.length = (a ++ oTag).length by simp, List.drop_left]
      have h2 : s.drop (x.length + oTag.length) = m ++ (cTag ++ t) := by
        rw [heq, ← List.append_assoc,
          show x.length + oTag.length = (x ++ oTag).length by simp, List.drop_left]
      rw [h1, List.drop_drop,
        show a.length + oTag.length + (x.length - a.length) = x.length + oTag.length
          by omega]
      exact h2
    have hrdecomp : r = (r.take (x.length - a.length) ++ m) ++ (cTag ++ t) := by
      conv_lhs => rw [← List.take_append_drop (x.length - a.length) r]
      rw [hr, List.append_assoc]
    exact findSub_of_append cTag t (r.take (x.length - a.length) ++ m)
      (by rw [← hrdecomp]; exact hnone)

/-- C9 (amended): if the body decomposes as `a ++ "<Plan>" ++ p ++
"</Plan>" ++ t` where no opening delimiter occurs earlier (inside `a`)
and the marked closing delimiter is the first one (none inside `p`),
post-processing yields visible content `t` stripped of surrounding
whitespace and stores `p`, stripped, as the `internal_plan` metadata;
and whenever the body admits no delimited-block decomposition at all —
no occurrence of the opening delimiter followed by a later closing
delimiter — the entire body stays visible and no metadata is set. -/
theorem c9_plan_extraction :
    (∀ a p t : List Char,
      containsSub oTag a = false →
      containsSub cTag p = false →
      processContent ⟨a ++ (oTag ++ (p ++ (cTag ++ t)))⟩ =
        (⟨stripList t⟩, some ⟨stripList p⟩)) ∧
    (∀ b : String,
      (∀ x m t : List Char, b.data ≠ x ++ (oTag ++ (m ++ (cTag ++ t)))) →
      processContent b = (b, none)) := by
  constructor
  · intro a p t h1 h2
    have e1 : findSub oTag (a ++ (oTag ++ (p ++ (cTag ++ t)))) =
        some (a, p ++ (cTag ++ t)) :=
      findSub_append_eq oTag a (p ++ (cTag ++ t)) (by decide)
        (not_occurs_of_not_containsSub h1) oTag_no_self_overlap
    have e2 : findSub cTag (p ++ (cTag ++ t)) = some (p, t) :=
      findSub_append_eq cTag p t (by decide)
        (not_occurs_of_not_containsSub h2) cTag_no_self_overlap
    show processContent ⟨a ++ (oTag ++ (p ++ (cTag ++ t)))⟩ = _
    unfold processContent
    simp only [e1, e2]
  · intro b hb
    unfold processContent
    cases hfs : findSub oTag b.data with
    | none => rfl
    | some v =>
      obtain ⟨x, r⟩ := v
      cases hfs2 : findSub cTag r with
      | none => simp only [hfs2]
      | some w =>
        obtain ⟨p2, t2⟩ := w
        exfalso
        have hb1 : b.data = x ++ (oTag ++ r) := findSub_sound hfs
        have hb2 : r = p2 ++ (cTag ++ t2) := findSub_sound hfs2
        exact hb x p2 t2 (by rw [hb1, hb2])

/-- Witness for `c9_plan_extraction` at concrete bodies, including a
block-free body that contains both delimiters (the closing one standing
before the opening one). -/
theorem c9_plan_extraction_witness :
    processContent "Hola <Plan>pensando</Plan>\nRespuesta" = ("Respuesta", some "pensando") ∧
    processContent "sin plan" = ("sin plan", none) ∧
    processContent "</Plan>x<Plan>y" = ("</Plan>x<Plan>y", none) := by
  refine ⟨?_,
    c9_plan_extraction.2 "sin plan"
      (fun x m t heq => not_occurs_of_not_containsSub (by decide) x (m ++ (cTag ++ t)) heq),
    c9_plan_extraction.2 "</Plan>x<Plan>y"
      (no_block_of_hasPlanBlock_false (by decide))⟩
  have h := c9_plan_extraction.1 "Hola ".data "pensando".data "\nRespuesta".data
    (by decide) (by decide)
  have e : ("Hola <Plan>pensando</Plan>\nRespuesta" : String) =
      ⟨"Hola ".data ++ (oTag ++ ("pensando".data ++ (cTag ++ "\nRespuesta".data)))⟩ := by
    decide
  rw [e, h]
  decide

/-! ## The one-way phase cap (C1) -/

theorem call_model_image_count (s : AgentState) (b : Bool) (r : ModelResp) :
    (call_model s b r).image_count = s.image_count := by
  unfold call_model
  split <;> rfl

theorem call_finishing_model_image_count (s : AgentState) (b : Bool) (r : ModelResp) :
    (call_finishing_model s b r).image_count = s.image_count := by
  unfold call_finishing_model
  split <;> rfl

theorem production_node_image_count (s : AgentState) (env : ProdEnv) :
    (production_node s env).1.image_count = s.image_count := by
  unfold production_node
  split
  · split <;> rfl
  · rfl

/-- Past the cap, `route_model_output` can only answer FINISHING or END. -/
theorem route_model_output_cap {s : AgentState} (h3 : 3 ≤ s.image_count) :
    route_model_output s ≠ Node.callModel ∧ route_model_output s ≠ Node.tools := by
  unfold route_model_output
  split
  · rw [if_pos h3]
    exact ⟨by decide, by decide⟩
  · exact ⟨by decide, by decide⟩

/-- `route_finishing_model` never answers IDEATE_OR_REFINE or TOOLS. -/
theorem route_finishing_model_ne (s : AgentState) :
    route_finishing_model s ≠ Node.callModel ∧ route_finishing_model s ≠ Node.tools := by
  unfold route_finishing_model
  split
  · split
    · exact ⟨by decide, by decide⟩
    · exact ⟨by decide, by decide⟩
  · exact ⟨by decide, by decide⟩

/-- The cap invariant: a configuration whose state has reached the image
cap is never positioned at `call_model` or at the tools node. -/
def CapLocked (c : Node × AgentState) : Prop :=
  3 ≤ c.2.image_count → c.1 ≠ Node.callModel ∧ c.1 ≠ Node.tools

theorem capLocked_of_step {c c' : Node × AgentState} (h : Step c c') : CapLocked c' := by
  cases h with
  | fromEntry s =>
    intro h3
    have he : route_entry s = Node.callFinishing := by
      unfold route_entry
      rw [if_pos h3]
    rw [he]
    exact ⟨by simp, by simp⟩
  | fromModel s b r =>
    intro h3
    exact route_model_output_cap h3
  | fromTools s env =>
    intro h3
    have he : route_after_tools (custom_tool_node s env).1 = Node.callFinishing := by
      unfold route_after_tools
      rw [if_pos h3]
    rw [he]
    exact ⟨by simp, by simp⟩
  | fromFinishing s b r =>
    intro h3
    exact route_finishing_model_ne _
  | fromProduction s env =>
    intro h3
    exact ⟨by simp, by simp⟩
  | newTurn s m e =>
    intro h3
    exact ⟨by simp, by simp⟩

theorem cap_count_mono_of_step {c c' : Node × AgentState} (h : Step c c')
    (hc : CapLocked c) (h3 : 3 ≤ c.2.image_count) : 3 ≤ c'.2.image_count := by
  cases h with
  | fromEntry s => exact h3
  | fromModel s b r => simpa [call_model_image_count] using h3
  | fromTools s env => exact absurd rfl (hc h3).2
  | fromFinishing s b r => simpa [call_finishing_model_image_count] using h3
  | fromProduction s env => simpa [production_node_image_count] using h3
  | newTurn s m e => exact h3

theorem capLocked_of_reach {c₀ c : Node × AgentState} (h0 : CapLocked c₀)
    (h : Relation.ReflTransGen Step c₀ c) : CapLocked c := by
  induction h with
  | refl => exact h0
  | tail _ hstep _ => exact capLocked_of_step hstep

theorem cap_persists {c c' : Node × AgentState}
    (h : Relation.ReflTransGen Step c c') (hc : CapLocked c)
    (h3 : 3 ≤ c.2.image_count) : 3 ≤ c'.2.image_count ∧ CapLocked c' := by
  induction h with
  | refl => exact ⟨h3, hc⟩
  | tail _ hstep ih => exact ⟨cap_count_mono_of_step hstep ih.2 ih.1, capLocked_of_step hstep⟩

/-- C1: once any router decision point of a conversation has observed
`image_count >= 3`, every configuration reachable from that point on —
in particular every subsequent routing decision — is FINISHING,
PRODUCTION or END, and never again IDEATE_OR_REFINE (`call_model`) or
TOOLS (`custom_tool_node`), for the remainder of the conversation's
life. -/
theorem c1_phase_cap_one_way (m : String) (e : Option String)
    (c c' : Node × AgentState)
    (hreach : Relation.ReflTransGen Step (Node.entry, initialState m e) c)
    (hsub : Relation.ReflTransGen Step c c')
    (h3 : 3 ≤ c.2.image_count) :
    c'.1 ≠ Node.callModel ∧ c'.1 ≠ Node.tools := by
  have h0 : CapLocked (Node.entry, initialState m e) := by
    intro h
    simp [initialState] at h
  have hc := capLocked_of_reach h0 hreach
  obtain ⟨h3', hc'⟩ := cap_persists hsub hc h3
  exact hc' h3'

/-- Concrete conversation used as the C1 witness: one `create_image`
call numbered 3 drives the state straight to the cap. -/
def s0W : AgentState := initialState "hola" (some "u@e.com")

def respW1 : ModelResp :=
  { content := "Listo", tool_calls := [⟨"create_image", "c1", { image_number := some 3 }⟩] }

def sW1 : AgentState := call_model s0W false respW1

def envW : Nat → CallEnv := fun _ =>
  { exc := none, readB64 := some "YjY0", uploadUrl := some "https://x" }

def sW2 : AgentState := (custom_tool_node sW1 envW).1

/-- Witness for `c1_phase_cap_one_way`: a concrete reachable
configuration with `image_count = 3` (at the finishing node), to which
the theorem applies reflexively. -/
theorem c1_phase_cap_one_way_witness :
    (Node.callFinishing, sW2).1 ≠ Node.callModel ∧ (Node.callFinishing, sW2).1 ≠ Node.tools := by
  have h1 : Step (Node.entry, s0W) (Node.callModel, s0W) := by
    have h := Step.fromEntry s0W
    rwa [show route_entry s0W = Node.callModel from by decide] at h
  have h2 : Step (Node.callModel, s0W) (Node.tools, sW1) := by
    have h := Step.fromModel s0W false respW1
    rwa [show route_model_output (call_model s0W false respW1) = Node.tools from by decide] at h
  have h3 : Step (Node.tools, sW1) (Node.callFinishing, sW2) := by
    have h := Step.fromTools sW1 envW
    rwa [show route_after_tools (custom_tool_node sW1 envW).1 = Node.callFinishing from by decide] at h
  have hchain : Relation.ReflTransGen Step
      (Node.entry, initialState "hola" (some "u@e.com")) (Node.callFinishing, sW2) :=
    .tail (.tail (.tail .refl h1) h2) h3
  exact c1_phase_cap_one_way "hola" (some "u@e.com")
    (Node.callFinishing, sW2) (Node.callFinishing, sW2) hchain .refl (by decide)

/-! ## Monotonicity of `image_count` (C2) -/

/-- The tool calls of the last message, when it is an assistant message. -/
def lastToolCalls (s : AgentState) : List ToolCall :=
  match s.messages.getLast? with
  | some (.ai _ tcs _) => tcs
  | _ => []

theorem processCall_countUpdate (bp em : String) (ce : CallEnv) (tc : ToolCall) :
    (processCall bp em ce tc).2.2.1 =
      if tc.name = "create_image" then some (tc.args.image_number.getD 1) else none := by
  obtain ⟨nm, idd, ar⟩ := tc
  by_cases hn : nm = "create_image"
  · subst hn
    unfold processCall
    simp only [if_pos rfl]
    rw [show registryNames.contains "create_image" = true from by decide]
    cases ce.exc <;> simp
  · unfold processCall
    simp only [hn, if_false]
    by_cases hr : registryNames.contains nm = false
    · have hmem : ¬ nm ∈ registryNames := by simpa using hr
      simp [hr, hn, hmem]
    · simp only [hr, Bool.false_eq_true, if_false, hn, if_false]
      by_cases hp : nm = "create_image_prompt"
      · simp only [hp, if_pos rfl]
        cases ce.exc <;> simp [hn]
      · simp [hn, hp]

theorem dispatchLoop_count_ge (bp em : String) (env : Nat → CallEnv) :
    ∀ (tcs : List ToolCall) (i : Nat) (count bound : Int),
      (∀ tc ∈ tcs, tc.name = "create_image" → bound ≤ tc.args.image_number.getD 1) →
      bound ≤ count →
      bound ≤ (dispatchLoop bp em env i count tcs).count := by
  intro tcs
  induction tcs with
  | nil =>
    intro i count bound _ hb
    simpa [dispatchLoop] using hb
  | cons tc rest ih =>
    intro i count bound h hb
    unfold dispatchLoop
    by_cases hf : filterNames.contains tc.name = false
    · rw [if_pos hf]
      exact ih (i + 1) count bound (fun tc' htc' => h tc' (List.mem_cons_of_mem _ htc')) hb
    · rw [if_neg hf]
      show bound ≤ (dispatchLoop bp em env (i + 1)
        ((processCall bp em (env i) tc).2.2.1.getD count) rest).count
      refine ih (i + 1) _ bound (fun tc' htc' => h tc' (List.mem_cons_of_mem _ htc')) ?_
      rw [processCall_countUpdate]
      by_cases hn : tc.name = "create_image"
      · simpa [hn] using h tc (List.mem_cons_self _ _) hn
      · simpa [hn] using hb

/-- C2 (amended): `image_count` is left unchanged by the model, finishing
and production nodes, and across a tool-dispatch step it is
non-decreasing *provided* every `create_image` call of the batch carries
a model-supplied `image_number` (default 1) at least as large as the
current count.  (The dispatcher sets the counter *to* the model-supplied
number, so without that proviso it can decrease —
see the counterexample.) -/
theorem c2_count_monotone :
    (∀ (s : AgentState) (b : Bool) (r : ModelResp),
      (call_model s b r).image_count = s.image_count) ∧
    (∀ (s : AgentState) (b : Bool) (r : ModelResp),
      (call_finishing_model s b r).image_count = s.image_count) ∧
    (∀ (s : AgentState) (env : ProdEnv),
      (production_node s env).1.image_count = s.image_count) ∧
    (∀ (s : AgentState) (env : Nat → CallEnv),
      (∀ tc ∈ lastToolCalls s, tc.name = "create_image" →
        s.image_count ≤ tc.args.image_number.getD 1) →
      s.image_count ≤ (custom_tool_node s env).1.image_count) := by
  refine ⟨call_model_image_count, call_finishing_model_image_count,
    production_node_image_count, ?_⟩
  intro s env h
  unfold custom_tool_node
  cases hm : s.messages.getLast? with
  | none => simp
  | some msg =>
    cases msg with
    | human c => simp
    | toolMsg c i n => simp
    | ai c tcs pl =>
      have h' : ∀ tc ∈ tcs, tc.name = "create_image" →
          s.image_count ≤ tc.args.image_number.getD 1 := by
        intro tc htc
        refine h tc ?_
        rw [lastToolCalls, hm]
        exact htc
      by_cases he : tcs.isEmpty
      · simp [he]
      · simp only [he, Bool.false_eq_true, if_false]
        exact dispatchLoop_count_ge _ _ env tcs 0 s.image_count s.image_count h' le_rfl

/-- Concrete conversation used against C2: a second `create_image` call
numbered 1 after one numbered 2. -/
def s0X : AgentState := initialState "hola" none

def respX1 : ModelResp :=
  { content := "v1", tool_calls := [⟨"create_image", "a", { image_number := some 2 }⟩] }

def sX1 : AgentState := call_model s0X false respX1

def envX : Nat → CallEnv := fun _ => { exc := none, readB64 := none, uploadUrl := none }

def sX2 : AgentState := (custom_tool_node sX1 envX).1

def respX2 : ModelResp :=
  { content := "v2", tool_calls := [⟨"create_image", "b", { image_number := some 1 }⟩] }

def sX3 : AgentState := call_model sX2 false respX2

def sX4 : AgentState := (custom_tool_node sX3 envX).1

/-- C2, counterexample to the claim as stated: a reachable pre-step
state with `image_count = 2` whose tool-dispatch step (a `create_image`
call with model-supplied `image_number = 1`) *decreases* `image_count`
to 1. -/
theorem c2_counterexample :
    Relation.ReflTransGen Step (Node.entry, initialState "hola" none) (Node.tools, sX3) ∧
    sX3.image_count = 2 ∧
    Step (Node.tools, sX3) (Node.callModel, sX4) ∧
    sX4.image_count = 1 ∧
    sX4.image_count < sX3.image_count := by
  have h1 : Step (Node.entry, s0X) (Node.callModel, s0X) := by
    have h := Step.fromEntry s0X
    rwa [show route_entry s0X = Node.callModel from by decide] at h
  have h2 : Step (Node.callModel, s0X) (Node.tools, sX1) := by
    have h := Step.fromModel s0X false respX1
    rwa [show route_model_output (call_model s0X false respX1) = Node.tools from by decide] at h
  have h3 : Step (Node.tools, sX1) (Node.callModel, sX2) := by
    have h := Step.fromTools sX1 envX
    rwa [show route_after_tools (custom_tool_node sX1 envX).1 = Node.callModel from by decide] at h
  have h4 : Step (Node.callModel, sX2) (Node.tools, sX3) := by
    have h := Step.fromModel sX2 false respX2
    rwa [show route_model_output (call_model sX2 false respX2) = Node.tools from by decide] at h
  have h5 : Step (Node.tools, sX3) (Node.callModel, sX4) := by
    have h := Step.fromTools sX3 envX
    rwa [show route_after_tools (custom_tool_node sX3 envX).1 = Node.callModel from by decide] at h
  exact ⟨.tail (.tail (.tail (.tail .refl h1) h2) h3) h4, by decide, h5, by decide, by decide⟩

/-- Witness for `c2_count_monotone` at concrete inputs. -/
theorem c2_count_monotone_witness :
    (call_model s0X false respX1).image_count = s0X.image_count ∧
    sX1.image_count ≤ (custom_tool_node sX1 envX).1.image_count := by
  exact ⟨c2_count_monotone.1 s0X false respX1,
    c2_count_monotone.2.2.2 sX1 envX (by decide)⟩

/-! ## Tool-result correspondence (C3, C4) -/

theorem processCall_ids (bp em : String) (ce : CallEnv) (tc : ToolCall)
    (hf : filterNames.contains tc.name = true) :
    (processCall bp em ce tc).1.map toolIdOf = [some tc.id] := by
  obtain ⟨nm, idd, ar⟩ := tc
  have hcases : nm = "create_image" ∨ nm = "create_image_prompt" := by
    simpa [filterNames] using hf
  unfold processCall
  rcases hcases with rfl | rfl
  · rw [show registryNames.contains "create_image" = true from by decide]
    cases ce.exc <;> simp [toolIdOf]
  · rw [show registryNames.contains "create_image_prompt" = true from by decide]
    cases ce.exc <;> simp [toolIdOf]

theorem dispatchLoop_ids (bp em : String) (env : Nat → CallEnv) :
    ∀ (tcs : List ToolCall) (i : Nat) (count : Int),
      (dispatchLoop bp em env i count tcs).msgs.map toolIdOf =
        (tcs.filter fun tc => filterNames.contains tc.name).map (fun tc => some tc.id) := by
  intro tcs
  induction tcs with
  | nil => intro i count; simp [dispatchLoop]
  | cons tc rest ih =>
    intro i count
    unfold dispatchLoop
    by_cases hf : filterNames.contains tc.name = false
    · have hmem : ¬ tc.name ∈ filterNames := by simpa using hf
      rw [if_pos hf]
      simp [List.filter_cons, hmem, ih]
    · have hf' : filterNames.contains tc.name = true := by simpa using hf
      have hmem : tc.name ∈ filterNames := by simpa using hf'
      rw [if_neg hf]
      show ((processCall bp em (env i) tc).1 ++
        (dispatchLoop bp em env (i + 1)
          ((processCall bp em (env i) tc).2.2.1.getD count) rest).msgs).map toolIdOf = _
      rw [List.map_append, processCall_ids _ _ _ _ hf', ih]
      simp [List.filter_cons, hmem]

theorem productionBody_ids (em : String) (tc : ToolCall) (env : ProdEnv) :
    (productionBody em tc env).1.map toolIdOf = [some tc.id] := by
  unfold productionBody
  cases hd : tc.args.design_number with
  | none => simp [toolIdOf]
  | some d =>
    by_cases hd0 : d = 0
    · simp [hd0, toolIdOf]
    · simp only [hd0, if_false]
      cases env.convertExc with
      | some e => simp [toolIdOf]
      | none =>
        cases env.upload with
        | raised e => simp [toolIdOf]
        | returned u => cases u <;> simp [toolIdOf]

/-- C3 (amended): in a tool-dispatch step, the message history is
preserved and extended with exactly one tool-result per requested call
*whose name passes the dispatch filter* (`create_image` /
`create_image_prompt`), in emission order, each carrying the id of the
call it answers, regardless of how many calls fail; calls with any other
name are skipped with no tool-result.  In `production_node` exactly one
tool-result is appended, answering the *first* call only. -/
theorem c3_one_result_per_filtered_call :
    (∀ (s : AgentState) (env : Nat → CallEnv) (content : String)
        (tcs : List ToolCall) (plan : Option String),
      s.messages.getLast? = some (.ai content tcs plan) →
      (custom_tool_node s env).1.messages.take s.messages.length = s.messages ∧
      ((custom_tool_node s env).1.messages.drop s.messages.length).map toolIdOf =
        (tcs.filter fun tc => filterNames.contains tc.name).map (fun tc => some tc.id)) ∧
    (∀ (s : AgentState) (env : ProdEnv) (content : String) (tc : ToolCall)
        (rest : List ToolCall) (plan : Option String),
      s.messages.getLast? = some (.ai content (tc :: rest) plan) →
      tc.name = "execute_production_file" →
      ((production_node s env).1.messages.drop s.messages.length).map toolIdOf =
        [some tc.id]) := by
  constructor
  · intro s env content tcs plan hm
    unfold custom_tool_node
    rw [hm]
    by_cases he : tcs.isEmpty
    · have : tcs = [] := List.isEmpty_iff.mp he
      subst this
      simp
    · simp only [he, Bool.false_eq_true, if_false]
      constructor
      · exact List.take_left _ _
      · rw [List.drop_left]
        exact dispatchLoop_ids _ _ env tcs 0 s.image_count
  · intro s env content tc rest plan hm hname
    unfold production_node
    simp only [hm]
    rw [if_pos hname, List.drop_left]
    exact productionBody_ids _ tc env

/-- Concrete input against C3: one requested call for the *registered*
tool `convert_black_to_transparent`, which the dispatch filter
nevertheless skips, so zero tool-results answer one tool call. -/
def sE : AgentState :=
  { messages := [.human "x",
      .ai "go" [⟨"convert_black_to_transparent", "t1",
        { image_path := some "a.png", output_path := some "b.png" }⟩] none],
    email := none, artifacts := [], image_count := 0 }

/-- C3, counterexample to the claim as stated: the assistant message
requests `N = 1` tool call, yet the dispatch step appends **no**
tool-result record at all before control returns to the model. -/
theorem c3_counterexample :
    (lastToolCalls sE).length = 1 ∧
    (custom_tool_node sE (fun _ => {})).1.messages = sE.messages := by
  constructor
  · decide
  · decide

/-- Witness for `c3_one_result_per_filtered_call` at concrete inputs. -/
theorem c3_one_result_witness :
    ((custom_tool_node sX1 (fun _ => {})).1.messages.drop sX1.messages.length).map toolIdOf
        = [some "a"] ∧
    ((production_node
        { messages := [.human "x", .ai "go" [⟨"execute_production_file", "p9",
            { design_number := some 2, size := some "m", product_type := some "liso" }⟩] none],
          email := none, artifacts := [], image_count := 3 }
        {}).1.messages.drop 2).map toolIdOf = [some "p9"] := by
  constructor
  · have h := c3_one_result_per_filtered_call.1 sX1 (fun _ => {}) "v1"
      [⟨"create_image", "a", { image_number := some 2 }⟩] none (by decide)
    rw [h.2]
    decide
  · have h := c3_one_result_per_filtered_call.2
      { messages := [.human "x", .ai "go" [⟨"execute_production_file", "p9",
          { design_number := some 2, size := some "m", product_type := some "liso" }⟩] none],
        email := none, artifacts := [], image_count := 3 }
      {} "go"
      ⟨"execute_production_file", "p9",
        { design_number := some 2, size := some "m", product_type := some "liso" }⟩
      [] none (by decide) (by decide)
    exact h

/-- A batch all of whose calls fail the dispatch filter produces no
output at all. -/
theorem dispatchLoop_all_skipped (bp em : String) (env : Nat → CallEnv) :
    ∀ (tcs : List ToolCall) (i : Nat) (count : Int),
      (∀ tc ∈ tcs, filterNames.contains tc.name = false) →
      dispatchLoop bp em env i count tcs = ⟨[], [], count, []⟩ := by
  intro tcs
  induction tcs with
  | nil => intro i count _; rfl
  | cons tc rest ih =>
    intro i count h
    unfold dispatchLoop
    rw [if_pos (h tc (List.mem_cons_self _ _))]
    exact ih (i + 1) count (fun tc' htc' => h tc' (List.mem_cons_of_mem _ htc'))

/-- C4 (amended): a tool call whose name is not admitted by the dispatch
filter — in particular any unregistered name such as `"foo"` — is
*silently skipped*: the dispatcher appends no tool-result for it (not
the `Error: Tool '...' not found.` record the claim expects, whose
producing branch is unreachable because both filter names are
registered), processing of the remaining calls in the batch is
unaffected, and when every call is skipped the state is returned
entirely unchanged. -/
theorem c4_unknown_tool_skipped :
    (∀ (bp em : String) (env : Nat → CallEnv) (i : Nat) (count : Int)
        (tc : ToolCall) (rest : List ToolCall),
      filterNames.contains tc.name = false →
      dispatchLoop bp em env i count (tc :: rest) =
        dispatchLoop bp em env (i + 1) count rest) ∧
    (∀ (s : AgentState) (env : Nat → CallEnv) (content : String)
        (tcs : List ToolCall) (plan : Option String),
      s.messages.getLast? = some (.ai content tcs plan) →
      (∀ tc ∈ tcs, filterNames.contains tc.name = false) →
      custom_tool_node s env = (s, [])) := by
  constructor
  · intro bp em env i count tc rest hf
    cases rest with
    | nil =>
      unfold dispatchLoop
      rw [if_pos hf]
      unfold dispatchLoop
      rfl
    | cons tc2 r2 =>
      unfold dispatchLoop
      rw [if_pos hf]
      conv_lhs => unfold dispatchLoop
  · intro s env content tcs plan hm h
    unfold custom_tool_node
    simp only [hm]
    by_cases he : tcs.isEmpty
    · rw [if_pos he]
    · rw [if_neg he, dispatchLoop_all_skipped _ _ env tcs 0 s.image_count h]
      simp

/-- Concrete input against C4: one call for the unregistered name
`"foo"`. -/
def sF : AgentState :=
  { messages := [.human "x", .ai "go" [⟨"foo", "z", {}⟩] none],
    email := none, artifacts := [], image_count := 0 }

/-- C4, counterexample to the claim as stated: the dispatcher appends
*no* error tool-result for the unresolvable name `"foo"` — the batch
output is empty and the state unchanged, instead of carrying the
`Error: Tool 'foo' not found.` record the claim requires. -/
theorem c4_counterexample :
    custom_tool_node sF (fun _ => {}) = (sF, []) ∧
    sF.messages ≠ sF.messages ++
      [Msg.toolMsg ("Error: Tool " ++ apos ++ "foo" ++ apos ++ " not found.") "z" none] := by
  constructor
  · decide
  · decide

/-- Witness for `c4_unknown_tool_skipped` at concrete inputs. -/
theorem c4_unknown_tool_skipped_witness :
    dispatchLoop "images/unknown_user" "unknown_user" (fun _ => {}) 0 0 [⟨"foo", "z", {}⟩] =
      dispatchLoop "images/unknown_user" "unknown_user" (fun _ => {}) 1 0 [] ∧
    custom_tool_node
      { messages := [.human "x", .ai "go" [⟨"foo", "z2", {}⟩, ⟨"finalize_design", "z3", {}⟩] none],
        email := none, artifacts := [], image_count := 1 } (fun _ => {}) =
      ({ messages := [.human "x",
          .ai "go" [⟨"foo", "z2", {}⟩, ⟨"finalize_design", "z3", {}⟩] none],
         email := none, artifacts := [], image_count := 1 }, []) := by
  constructor
  · exact c4_unknown_tool_skipped.1 "images/unknown_user" "unknown_user" (fun _ => {}) 0 0
      ⟨"foo", "z", {}⟩ [] (by decide)
  · exact c4_unknown_tool_skipped.2
      { messages := [.human "x",
          .ai "go" [⟨"foo", "z2", {}⟩, ⟨"finalize_design", "z3", {}⟩] none],
        email := none, artifacts := [], image_count := 1 } (fun _ => {}) "go"
      [⟨"foo", "z2", {}⟩, ⟨"finalize_design", "z3", {}⟩] none (by decide) (by decide)

/-! ## Image-producing calls and the upload substitution (C5) -/

/-- Concrete input for C5: a successful `create_image` call whose file
read succeeds and whose upload returns a public URL. -/
def sG : AgentState :=
  { messages := [.human "quiero",
      .ai "hecho" [⟨"create_image", "g1",
        { prompt := some "un perro", image_number := some 2 }⟩] none],
    email := some "user@mail.com", artifacts := [], image_count := 1 }

def envG : Nat → CallEnv := fun _ =>
  { exc := none, readB64 := some "aW1n",
    uploadUrl := some "https://storage.googleapis.com/ownit/design-2.png" }

/-- C5, evaluation at the failing input: the dispatcher does read the
produced file into one base64 artifact and does attempt the upload, but
even though the upload *succeeds* with a public URL, the tool-result
content is still the local file path — the source builds the
`ToolMessage` before uploading, and the later `tool_output = public_url`
assignment (graph.py:232) no longer reaches it. -/
theorem c5_upload_url_never_in_tool_result :
    custom_tool_node sG envG =
      ({ messages := sG.messages ++
          [.toolMsg "images/user@mail.com/design-2.png" "g1" (some "create_image")],
         email := some "user@mail.com",
         artifacts := [{ type := "image", b64 := "aW1n" }],
         image_count := 2 },
       [.readFile "images/user@mail.com/design-2.png",
        .upload "images/user@mail.com/design-2.png" "user@mail.com"]) ∧
    ("images/user@mail.com/design-2.png" : String) ≠
      "https://storage.googleapis.com/ownit/design-2.png" := by
  constructor
  · decide
  · decide

/-! ## The production finalizer (C6, C7, C10) -/

/-- C6 (amended): a finishing-phase `execute_production_file` call with
`design_number = d` present *and nonzero*, `size` and `product_type`
present, and a successful conversion and upload, reads
`design-<d>.png` in the user's namespace, writes
`talle-<lower size>-<lower type>.png` there, uploads it, appends exactly
one tool-result whose content is the public URL, and the graph then
transitions to END.  (A present but *zero* `design_number` is rejected
by the Python truthiness check — see the counterexample.) -/
theorem c6_production_success (s : AgentState) (env : ProdEnv) (content : String)
    (tc : ToolCall) (rest : List ToolCall) (plan : Option String)
    (d : Int) (sz pt u : String)
    (hm : s.messages.getLast? = some (.ai content (tc :: rest) plan))
    (hname : tc.name = "execute_production_file")
    (hd : tc.args.design_number = some d) (hd0 : d ≠ 0)
    (hsz : tc.args.size = some sz) (hpt : tc.args.product_type = some pt)
    (hconv : env.convertExc = none) (hup : env.upload = .returned (some u)) :
    production_node s env =
      ({ s with messages := s.messages ++
          [.toolMsg u tc.id (some "execute_production_file")] },
       [.convert
          (pathJoin (pathJoin "images" (orUnknown s.email)) ("design-" ++ toString d ++ ".png"))
          (pathJoin (pathJoin "images" (orUnknown s.email))
            ("talle-" ++ pyLower sz ++ "-" ++ pyLower pt ++ ".png")),
        .upload
          (pathJoin (pathJoin "images" (orUnknown s.email))
            ("talle-" ++ pyLower sz ++ "-" ++ pyLower pt ++ ".png"))
          (orUnknown s.email)]) ∧
    Step (Node.production, s) (Node.endNode, (production_node s env).1) := by
  constructor
  · unfold production_node productionBody
    simp only [hm, hname, if_pos rfl, hd, hd0, if_false, hsz, hpt, hconv, hup,
      Option.getD_some]
    simp
  · exact Step.fromProduction s env

/-- Concrete input against C6: `design_number` present but equal to 0. -/
def sH : AgentState :=
  { messages := [.human "x",
      .ai "fin" [⟨"execute_production_file", "h1",
        { design_number := some 0, size := some "M", product_type := some "Liso" }⟩] none],
    email := some "u@e.com", artifacts := [], image_count := 3 }

def envH : ProdEnv := { convertExc := none, upload := .returned (some "https://ok") }

/-- C6, counterexample to the claim as stated: with all three arguments
present but `design_number = 0`, the step performs no conversion or
upload and appends an error tool-result instead of the public URL
(`if not design_num` treats 0 as missing). -/
theorem c6_counterexample :
    production_node sH envH =
      ({ sH with messages := sH.messages ++
          [.toolMsg "Error finalizing design: design_number is missing from execute_production_file call"
            "h1" (some "execute_production_file")] }, []) ∧
    ("Error finalizing design: design_number is missing from execute_production_file call" : String)
      ≠ "https://ok" := by
  constructor
  · decide
  · decide

/-- Concrete inputs for the C6 witness. -/
def tcI : ToolCall :=
  ⟨"execute_production_file", "p2",
    { design_number := some 2, size := some "m", product_type := some "liso" }⟩

def sI : AgentState :=
  { messages := [.human "x", .ai "fin" [tcI] none],
    email := some "u@e.com", artifacts := [], image_count := 3 }

def envI : ProdEnv :=
  { convertExc := none,
    upload := .returned (some "https://storage.googleapis.com/ownit/talle-m-liso.png") }

/-- Witness for `c6_production_success` at a concrete call. -/
theorem c6_production_success_witness :
    production_node sI envI =
      ({ sI with messages := sI.messages ++
          [.toolMsg "https://storage.googleapis.com/ownit/talle-m-liso.png" tcI.id
            (some "execute_production_file")] },
       [.convert
          (pathJoin (pathJoin "images" (orUnknown sI.email)) ("design-" ++ toString (2 : Int) ++ ".png"))
          (pathJoin (pathJoin "images" (orUnknown sI.email))
            ("talle-" ++ pyLower "m" ++ "-" ++ pyLower "liso" ++ ".png")),
        .upload
          (pathJoin (pathJoin "images" (orUnknown sI.email))
            ("talle-" ++ pyLower "m" ++ "-" ++ pyLower "liso" ++ ".png"))
          (orUnknown sI.email)]) ∧
    Step (Node.production, sI) (Node.endNode, (production_node sI envI).1) :=
  c6_production_success sI envI "fin" tcI [] none 2 "m" "liso"
    "https://storage.googleapis.com/ownit/talle-m-liso.png"
    (by decide) rfl rfl (by decide) rfl rfl rfl rfl

/-- C7 (amended): an `execute_production_file` call whose design selector
is missing (absent, or present as the falsy 0) makes the production step
append exactly one error tool-result and perform no conversion or
upload; the graph then transitions unconditionally to END for this turn,
and the finishing model is reached again at the next turn's entry
decision only when `image_count >= 3`. -/
theorem c7_missing_design_number (s : AgentState) (env : ProdEnv) (content : String)
    (tc : ToolCall) (rest : List ToolCall) (plan : Option String)
    (hm : s.messages.getLast? = some (.ai content (tc :: rest) plan))
    (hname : tc.name = "execute_production_file")
    (hd : tc.args.design_number = none ∨ tc.args.design_number = some 0) :
    production_node s env =
      ({ s with messages := s.messages ++
          [.toolMsg "Error finalizing design: design_number is missing from execute_production_file call"
            tc.id (some "execute_production_file")] }, []) ∧
    Step (Node.production, s) (Node.endNode, (production_node s env).1) ∧
    (∀ (m : String) (e : Option String), 3 ≤ s.image_count →
      route_entry
        { (production_node s env).1 with
          messages := (production_node s env).1.messages ++ [.human m], email := e } =
        Node.callFinishing) := by
  refine ⟨?_, Step.fromProduction s env, ?_⟩
  · unfold production_node productionBody
    rcases hd with hd | hd <;>
      simp only [hm, hname, if_pos rfl, hd] <;> simp
  · intro m e h3
    unfold route_entry
    rw [if_pos ?_]
    show (3 : Int) ≤ (production_node s env).1.image_count
    rw [production_node_image_count]
    exact h3

/-- Concrete conversation against C7: `finalize_design` at
`image_count = 0` enters the finishing phase, whose production request
lacks `design_number`. -/
def s0Y : AgentState := initialState "hola" none

def respY1 : ModelResp := { content := "ok", tool_calls := [⟨"finalize_design", "f1", {}⟩] }

def sY1 : AgentState := call_model s0Y false respY1

def respY2 : ModelResp :=
  { content := "prod", tool_calls := [⟨"execute_production_file", "p1",
      { size := some "m", product_type := some "liso" }⟩] }

def sY2 : AgentState := call_finishing_model sY1 false respY2

def envY : ProdEnv := { convertExc := none, upload := .returned (some "https://url") }

def sY3 : AgentState := (production_node sY2 envY).1

/-- C7, counterexample to the claim as stated: the validation failure
does append one error tool-result with no conversion or upload, but the
conversation does **not** remain in FINISHING — the graph transitions to
END for this turn, and at the next decision point (the next turn's entry
router, here with `image_count = 0`) the *main* model is reached, not
the finishing model. -/
theorem c7_counterexample :
    Relation.ReflTransGen Step (Node.entry, initialState "hola" none) (Node.production, sY2) ∧
    (production_node sY2 envY).1.messages = sY2.messages ++
      [.toolMsg "Error finalizing design: design_number is missing from execute_production_file call"
        "p1" (some "execute_production_file")] ∧
    (production_node sY2 envY).2 = [] ∧
    Step (Node.production, sY2) (Node.endNode, sY3) ∧
    route_entry { sY3 with messages := sY3.messages ++ [.human "sigo"], email := none } =
      Node.callModel ∧
    Node.callModel ≠ Node.callFinishing := by
  have h1 : Step (Node.entry, s0Y) (Node.callModel, s0Y) := by
    have h := Step.fromEntry s0Y
    rwa [show route_entry s0Y = Node.callModel from by decide] at h
  have h2 : Step (Node.callModel, s0Y) (Node.callFinishing, sY1) := by
    have h := Step.fromModel s0Y false respY1
    rwa [show route_model_output (call_model s0Y false respY1) = Node.callFinishing
      from by decide] at h
  have h3 : Step (Node.callFinishing, sY1) (Node.production, sY2) := by
    have h := Step.fromFinishing sY1 false respY2
    rwa [show route_finishing_model (call_finishing_model sY1 false respY2) = Node.production
      from by decide] at h
  refine ⟨.tail (.tail (.tail .refl h1) h2) h3, by decide, by decide,
    Step.fromProduction sY2 envY, by decide, by decide⟩

/-- Concrete inputs for the C7 witness. -/
def sJ : AgentState :=
  { messages := [.human "x",
      .ai "fin" [⟨"execute_production_file", "j1", { size := some "m" }⟩] none],
    email := some "u@e.com", artifacts := [], image_count := 3 }

/-- Witness for `c7_missing_design_number` at a concrete call. -/
theorem c7_missing_design_number_witness :
    production_node sJ envH =
      ({ sJ with messages := sJ.messages ++
          [.toolMsg "Error finalizing design: design_number is missing from execute_production_file call"
            "j1" (some "execute_production_file")] }, []) ∧
    Step (Node.production, sJ) (Node.endNode, (production_node sJ envH).1) ∧
    route_entry
      { (production_node sJ envH).1 with
        messages := (production_node sJ envH).1.messages ++ [.human "otra"], email := none } =
      Node.callFinishing := by
  have h := c7_missing_design_number sJ envH "fin"
    ⟨"execute_production_file", "j1", { size := some "m" }⟩ [] none
    (by decide) rfl (Or.inl rfl)
  exact ⟨h.1, h.2.1, h.2.2 "otra" none (by decide)⟩

/-! ## Routing on the satisfaction signal (C8) -/

/-- Concrete input against C8: `finalize_design` is among the assistant's
tool calls but not first. -/
def sK : AgentState :=
  { messages := [.human "x",
      .ai "dos" [⟨"create_image", "k1", { image_number := some 2 }⟩,
                 ⟨"finalize_design", "k2", {}⟩] none],
    email := none, artifacts := [], image_count := 2 }

/-- C8, counterexample to the claim as stated: with `finalize_design`
among the tool calls but not in first position (and the cap not
reached), the router sends the conversation to TOOLS, not FINISHING —
only `tool_calls[0]` is inspected. -/
theorem c8_counterexample :
    route_model_output sK = Node.tools ∧ Node.tools ≠ Node.callFinishing := by
  constructor
  · decide
  · decide

/-- C8 (amended): in the main loop, whenever the *first* tool call of
the assistant message is the "user satisfied" call `finalize_design`,
the router transitions the conversation to FINISHING. -/
theorem c8_finalize_first_routes_finishing (s : AgentState) (content : String)
    (tc : ToolCall) (rest : List ToolCall) (plan : Option String)
    (hm : s.messages.getLast? = some (.ai content (tc :: rest) plan))
    (hname : tc.name = "finalize_design") :
    route_model_output s = Node.callFinishing := by
  unfold route_model_output
  simp only [hm]
  by_cases h3 : s.image_count ≥ 3
  · rw [if_pos h3]
  · rw [if_neg h3, if_pos hname]

/-- Concrete input for the C8 witness. -/
def sL : AgentState :=
  { messages := [.human "x", .ai "listo" [⟨"finalize_design", "l1", {}⟩] none],
    email := none, artifacts := [], image_count := 1 }

/-- Witness for `c8_finalize_first_routes_finishing`. -/
theorem c8_finalize_first_witness : route_model_output sL = Node.callFinishing :=
  c8_finalize_first_routes_finishing sL "listo" ⟨"finalize_design", "l1", {}⟩ [] none
    (by decide) rfl

/-! ## Sentinel defaults for missing selectors (C10) -/

/-- Concrete input against C10 as stated: the design selector is
*present* (as 0) with both other selectors absent. -/
def sN : AgentState :=
  { messages := [.human "x",
      .ai "fin" [⟨"execute_production_file", "n1", { design_number := some 0 }⟩] none],
    email := none, artifacts := [], image_count := 3 }

def envN : ProdEnv := { convertExc := none, upload := .returned (some "https://ok") }

/-- C10, counterexample to the claim as stated: with `design_number`
present but 0 and `size`/`product_type` absent, the step *does* fail
validation (`if not design_num` treats the present 0 as missing): one
error tool-result, no conversion and no upload — not the
sentinel-default production path the claim asserts for every call with
the design selector present. -/
theorem c10_counterexample :
    production_node sN envN =
      ({ sN with messages := sN.messages ++
          [.toolMsg "Error finalizing design: design_number is missing from execute_production_file call"
            "n1" (some "execute_production_file")] }, []) ∧
    ("Error finalizing design: design_number is missing from execute_production_file call" : String)
      ≠ "https://ok" := by
  constructor
  · decide
  · decide

/-- C10 (amended): an `execute_production_file` call whose design
selector is present and *nonzero* but whose `size` or `product_type`
(either one, or both) is absent does not fail validation: each missing
selector is replaced by its sentinel default `talle-desconocido` /
`tipo-desconocido`, the selectors are lowercased (which leaves the
sentinels unchanged), the output filename is derived from the
substituted values — with both missing,
`talle-talle-desconocido-tipo-desconocido.png` — and conversion and
upload proceed exactly as on the normal path.  A present-but-zero
design selector fails validation instead (see the counterexample). -/
theorem c10_sentinel_defaults (s : AgentState) (env : ProdEnv) (content : String)
    (tc : ToolCall) (rest : List ToolCall) (plan : Option String)
    (d : Int) (u : String)
    (hm : s.messages.getLast? = some (.ai content (tc :: rest) plan))
    (hname : tc.name = "execute_production_file")
    (hd : tc.args.design_number = some d) (hd0 : d ≠ 0)
    (_hmiss : tc.args.size = none ∨ tc.args.product_type = none)
    (hconv : env.convertExc = none) (hup : env.upload = .returned (some u)) :
    production_node s env =
      ({ s with messages := s.messages ++
          [.toolMsg u tc.id (some "execute_production_file")] },
       [.convert
          (pathJoin (pathJoin "images" (orUnknown s.email)) ("design-" ++ toString d ++ ".png"))
          (pathJoin (pathJoin "images" (orUnknown s.email))
            ("talle-" ++ pyLower (tc.args.size.getD "talle-desconocido") ++ "-" ++
              pyLower (tc.args.product_type.getD "tipo-desconocido") ++ ".png")),
        .upload
          (pathJoin (pathJoin "images" (orUnknown s.email))
            ("talle-" ++ pyLower (tc.args.size.getD "talle-desconocido") ++ "-" ++
              pyLower (tc.args.product_type.getD "tipo-desconocido") ++ ".png"))
          (orUnknown s.email)]) := by
  unfold production_node productionBody
  simp only [hm, hname, if_pos rfl, hd, hd0, if_false, hconv, hup]
  simp

/-- Concrete input for the C10 witness with only `size` missing and a
`product_type` that exercises lowercasing. -/
def tcM : ToolCall :=
  ⟨"execute_production_file", "m1",
    { design_number := some 1, product_type := some "Liso" }⟩

def sM : AgentState :=
  { messages := [.human "x", .ai "fin" [tcM] none],
    email := none, artifacts := [], image_count := 3 }

/-- Concrete input for the C10 witness with both selectors missing. -/
def tcP : ToolCall := ⟨"execute_production_file", "p7", { design_number := some 2 }⟩

def sP : AgentState :=
  { messages := [.human "x", .ai "fin" [tcP] none],
    email := none, artifacts := [], image_count := 3 }

/-- Witness for `c10_sentinel_defaults`: one application with `size`
alone missing (output `talle-talle-desconocido-liso.png`), one with both
selectors missing (output
`talle-talle-desconocido-tipo-desconocido.png`). -/
theorem c10_sentinel_defaults_witness :
    production_node sM envI =
      ({ sM with messages := sM.messages ++
          [.toolMsg "https://storage.googleapis.com/ownit/talle-m-liso.png" tcM.id
            (some "execute_production_file")] },
       [.convert "images/unknown_user/design-1.png"
          "images/unknown_user/talle-talle-desconocido-liso.png",
        .upload "images/unknown_user/talle-talle-desconocido-liso.png" "unknown_user"]) ∧
    production_node sP envI =
      ({ sP with messages := sP.messages ++
          [.toolMsg "https://storage.googleapis.com/ownit/talle-m-liso.png" tcP.id
            (some "execute_production_file")] },
       [.convert "images/unknown_user/design-2.png"
          "images/unknown_user/talle-talle-desconocido-tipo-desconocido.png",
        .upload "images/unknown_user/talle-talle-desconocido-tipo-desconocido.png"
          "unknown_user"]) := by
  constructor
  · have h := c10_sentinel_defaults sM envI "fin" tcM [] none 1
      "https://storage.googleapis.com/ownit/talle-m-liso.png"
      (by decide) rfl rfl (by decide) (Or.inl rfl) rfl rfl
    rw [h]
    decide
  · have h := c10_sentinel_defaults sP envI "fin" tcP [] none 2
      "https://storage.googleapis.com/ownit/talle-m-liso.png"
      (by decide) rfl rfl (by decide) (Or.inl rfl) rfl rfl
    rw [h]
    decide
